import Mathlib

/-! # Element: OSC receiver node, audio mixer bus layouts, render sequence builder

A shallow embedding of

* `src/engine/nodes/OSCReceiverNode.cpp` (the OSC to MIDI bridge node),
* `project/Source/engine/AudioMixerProcessor.h` (`isBusesLayoutSupported`),
* the render sequence builder and the graph engine's `connect`, which are
  described by the specification only,

followed by the theorems about them.

Conventions of the embedding:

* C++ `int` values are `Int`; the functions embedded here do no arithmetic on
  them, so no wrap-around is involved.
* `double sampleRate` is only stored and passed on, never computed with; it is
  a type parameter `Rate`.
* JUCE objects owned by the node that the code only calls into
  (`MidiMessageCollector`) are represented by the ordered log of the calls made
  on them.
* `OSCMessage`, `MidiMessage` and `OscProcessor::processOscToMidiMessage` are
  declared outside the embedded sources; they are parameters.
-/

namespace Element

/-! ## Ports -/

/-- Modelled from the spec: the port types of the data model, Audio, Midi and
Control; the declaration of `PortType`, used as `PortType::Midi` in
`createPorts`, is absent. -/
inductive PortType where
  | Control
  | Audio
  | Midi
  deriving DecidableEq, Repr

/-- Modelled from the spec: the `PortDescription` record stored by `PortList`
(its declaration is absent); the fields are the six arguments of
`ports.add (type, index, channel, symbol, name, input)`. -/
structure PortDescription where
  type : PortType
  index : Int
  channel : Int
  symbol : String
  name : String
  input : Bool
  deriving DecidableEq, Repr

/-- Modelled from the spec: `PortList` (its declaration is absent) is the
ordered sequence of the ports added so far. -/
abbrev PortList := List PortDescription

/-- Modelled from the spec: `PortList::clearQuick` (declaration absent) removes
every port. -/
def PortList.clearQuick (_ports : PortList) : PortList := []

/-- Modelled from the spec: `PortList::add` (declaration absent) appends one
port built from its six arguments. -/
def PortList.add (ports : PortList) (type : PortType) (index channel : Int)
    (symbol name : String) (input : Bool) : PortList :=
  ports ++ [{ type := type, index := index, channel := channel,
              symbol := symbol, name := name, input := input }]

/-- The identity of a port within its node: (direction, type, channel). -/
def PortDescription.identity (p : PortDescription) : Bool × PortType × Int :=
  (p.input, p.type, p.channel)

/-! ## The OSC receiver node -/

/-- One call made on the node's `MidiMessageCollector outputMidiMessages`. -/
inductive CollectorCall (Rate MidiMessage : Type) where
  | reset (sampleRate : Rate)
  | addMessageToQueue (message : MidiMessage)
  deriving DecidableEq, Repr

/-- The `juce::AudioSampleBuffer` handed to `render`; the code only reads its
number of samples. -/
structure AudioSampleBuffer where
  numChannels : Int
  size : Int
  deriving DecidableEq, Repr

/-- The method `AudioSampleBuffer::getNumSamples`. -/
def AudioSampleBuffer.getNumSamples (audio : AudioSampleBuffer) : Int := audio.size

/-- The data members of `OSCReceiverNode` that the embedded member functions
read or write. `outputMidiMessages` is the log of calls made on the collector,
oldest first; `oscMessages` is the `std::vector` of pending messages, front
first. -/
structure OSCReceiverNode (Rate OSCMessage MidiMessage : Type) where
  currentSampleRate : Rate
  createdPorts : Bool
  outputMidiMessagesInitDone : Bool
  outputMidiMessages : List (CollectorCall Rate MidiMessage)
  ports : PortList
  connected : Bool
  currentPortNumber : Int
  currentHostName : String
  oscMessages : List OSCMessage

namespace OSCReceiverNode

variable {Rate OSCMessage MidiMessage MidiPipe : Type}

/-- Modelled from the spec: the node right after the constructor
`OSCReceiverNode::OSCReceiverNode`, whose body only sets metadata and registers
the OSC listener. The class declaration with the member initialisers is absent:
the pending queue starts empty, nothing has been called on the collector, the
flags are clear, no port exists yet, and the members without a known initial
value are arguments. -/
def construct (currentSampleRate : Rate) (currentPortNumber : Int)
    (currentHostName : String) : OSCReceiverNode Rate OSCMessage MidiMessage :=
  { currentSampleRate := currentSampleRate
    createdPorts := false
    outputMidiMessagesInitDone := false
    outputMidiMessages := []
    ports := []
    connected := false
    currentPortNumber := currentPortNumber
    currentHostName := currentHostName
    oscMessages := [] }

/-- The range-for loop of `prepareToRender`: one `addMessageToQueue` per
pending message, front to back. -/
def forwardMessages (processOscToMidiMessage : OSCMessage → MidiMessage) :
    List OSCMessage → List (CollectorCall Rate MidiMessage) →
    List (CollectorCall Rate MidiMessage)
  | [], collector => collector
  | msg :: rest, collector =>
      forwardMessages processOscToMidiMessage rest
        (collector ++ [CollectorCall.addMessageToQueue (processOscToMidiMessage msg)])

/-- The method `OSCReceiverNode::prepareToRender (double sampleRate, int maxBufferSize)`. -/
def prepareToRender (processOscToMidiMessage : OSCMessage → MidiMessage)
    (s : OSCReceiverNode Rate OSCMessage MidiMessage) (sampleRate : Rate)
    (_maxBufferSize : Int) : OSCReceiverNode Rate OSCMessage MidiMessage :=
  let s1 :=
    if s.outputMidiMessagesInitDone = false then
      { s with
        outputMidiMessages := s.outputMidiMessages ++ [CollectorCall.reset sampleRate]
        currentSampleRate := sampleRate
        outputMidiMessagesInitDone := true }
    else s
  let s2 :=
    { s1 with
      outputMidiMessages :=
        forwardMessages processOscToMidiMessage s1.oscMessages s1.outputMidiMessages }
  { s2 with oscMessages := [] }

/-- The method `OSCReceiverNode::createPorts`. -/
def createPorts (s : OSCReceiverNode Rate OSCMessage MidiMessage) :
    OSCReceiverNode Rate OSCMessage MidiMessage :=
  if s.createdPorts then s
  else
    let ports0 := PortList.clearQuick s.ports
    let ports1 := PortList.add ports0 PortType.Midi 0 0 "midi_in" "MIDI In" true
    let ports2 := PortList.add ports1 PortType.Midi 1 0 "midi_out" "MIDI Out" false
    { s with ports := ports2, createdPorts := true }

/-- The method `OSCReceiverNode::render (AudioSampleBuffer&, MidiPipe&)`. The
body after the early return is commented out in the source, so both branches
leave the node, the audio buffer and the MIDI pipe as they were; the timestamp
read at entry is an unused local. -/
def render (s : OSCReceiverNode Rate OSCMessage MidiMessage) (audio : AudioSampleBuffer)
    (midi : MidiPipe) : OSCReceiverNode Rate OSCMessage MidiMessage × AudioSampleBuffer × MidiPipe :=
  let nframes := audio.getNumSamples
  if nframes = 0 then (s, audio, midi)
  else (s, audio, midi)

/-- The callback `OSCReceiverNode::oscMessageReceived (const OSCMessage&)`; the
`DBG` line only prints. -/
def oscMessageReceived (s : OSCReceiverNode Rate OSCMessage MidiMessage)
    (message : OSCMessage) : OSCReceiverNode Rate OSCMessage MidiMessage :=
  { s with oscMessages := s.oscMessages ++ [message] }

/-- The method `OSCReceiverNode::isValidOscPort (int port) const`. -/
def isValidOscPort (_s : OSCReceiverNode Rate OSCMessage MidiMessage) (port : Int) : Bool :=
  decide (port > 0) && decide (port < 65536)

/-- One call on the node from outside: the OSC callback, `prepareToRender`, or
`render`. -/
inductive Call (Rate OSCMessage MidiPipe : Type) where
  | oscMessageReceived (message : OSCMessage)
  | prepareToRender (sampleRate : Rate) (maxBufferSize : Int)
  | render (audio : AudioSampleBuffer) (midi : MidiPipe)

/-- The node after one call. -/
def step (processOscToMidiMessage : OSCMessage → MidiMessage)
    (s : OSCReceiverNode Rate OSCMessage MidiMessage) :
    Call Rate OSCMessage MidiPipe → OSCReceiverNode Rate OSCMessage MidiMessage
  | Call.oscMessageReceived message => oscMessageReceived s message
  | Call.prepareToRender sampleRate maxBufferSize =>
      prepareToRender processOscToMidiMessage s sampleRate maxBufferSize
  | Call.render audio midi => (render s audio midi).1

/-- The node after a sequence of calls, first call first. -/
def run (processOscToMidiMessage : OSCMessage → MidiMessage)
    (s : OSCReceiverNode Rate OSCMessage MidiMessage)
    (calls : List (Call Rate OSCMessage MidiPipe)) :
    OSCReceiverNode Rate OSCMessage MidiMessage :=
  calls.foldl (step processOscToMidiMessage) s

/-- The number of `oscMessageReceived` calls in a sequence of calls. -/
def receivedCount : List (Call Rate OSCMessage MidiPipe) → Nat
  | [] => 0
  | Call.oscMessageReceived _ :: rest => receivedCount rest + 1
  | _ :: rest => receivedCount rest

/-- The node after a sequence of `prepareToRender` calls, given as
(sampleRate, maxBufferSize) pairs. -/
def prepareAll (processOscToMidiMessage : OSCMessage → MidiMessage)
    (s : OSCReceiverNode Rate OSCMessage MidiMessage) (calls : List (Rate × Int)) :
    OSCReceiverNode Rate OSCMessage MidiMessage :=
  calls.foldl (fun t c => prepareToRender processOscToMidiMessage t c.1 c.2) s

end OSCReceiverNode

/-! ## Audio mixer bus layouts -/

/-- The `juce::AudioChannelSet` of one bus: the channel types it holds. -/
structure AudioChannelSet where
  channels : List Nat
  deriving DecidableEq, Repr

/-- The method `AudioChannelSet::size`: the number of channels. -/
def AudioChannelSet.size (bus : AudioChannelSet) : Int := bus.channels.length

/-- The `juce::AudioProcessor::BusesLayout` record. -/
structure BusesLayout where
  inputBuses : List AudioChannelSet
  outputBuses : List AudioChannelSet
  deriving DecidableEq, Repr

namespace AudioMixerProcessor

/-- The second loop of `isBusesLayoutSupported`, over the output buses, and
the final `return true`. -/
def outputLoop : List AudioChannelSet → Bool
  | [] => true
  | bus :: rest => if bus.size ≠ 2 then false else outputLoop rest

/-- The first loop of `isBusesLayoutSupported`, over the input buses, followed
by the rest of the body. -/
def inputLoop (outputBuses : List AudioChannelSet) : List AudioChannelSet → Bool
  | [] => outputLoop outputBuses
  | bus :: rest => if bus.size ≠ 2 then false else inputLoop outputBuses rest

/-- The method `AudioMixerProcessor::isBusesLayoutSupported (const BusesLayout&)`. -/
def isBusesLayoutSupported (layout : BusesLayout) : Bool :=
  inputLoop layout.outputBuses layout.inputBuses

end AudioMixerProcessor

/-! ## Graph topology, connection set, render sequence builder, graph engine

The sources of these components are not part of the embedded files; the
definitions below follow the specification. -/

/-- Modelled from the spec: the direction of a port; the graph sources are absent. -/
inductive Direction where
  | Input
  | Output
  deriving DecidableEq, Repr

/-- Modelled from the spec: the Port record of the data model, `{ type,
direction, channel, name, displayName }`; the graph sources are absent. -/
structure Port where
  type : PortType
  direction : Direction
  channel : Nat
  name : String
  displayName : String
  deriving DecidableEq, Repr

/-- Modelled from the spec: the Node record of the data model; the graph
sources are absent. The polymorphic implementation is left out, since the
builder and the connection set depend on the id and the port list only. -/
structure Node where
  id : Nat
  portList : List Port
  enabled : Bool
  bypassed : Bool
  renderOrderIndex : Int
  deriving DecidableEq, Repr

/-- Modelled from the spec: the Connection (Arc) record, `{ sourceNodeId,
sourcePortIndex, destNodeId, destPortIndex }`; the graph sources are absent. -/
structure Arc where
  sourceNodeId : Nat
  sourcePortIndex : Nat
  destNodeId : Nat
  destPortIndex : Nat
  deriving DecidableEq, Repr

/-- Modelled from the spec: the Graph (topology), `{ nodes, connections }`;
the graph sources are absent. -/
structure Graph where
  nodes : List Node
  connections : List Arc
  deriving DecidableEq, Repr

/-- Modelled from the spec: the errors of the Connection Set (section 7); the
graph sources are absent. -/
inductive ConnectionError where
  | InvalidPort
  | TypeMismatch
  | DuplicateConnection
  | InputAlreadyDriven
  deriving DecidableEq, Repr

/-- Modelled from the spec: `CycleError{involvedNodeIds}` (section 7); the
graph sources are absent. -/
structure CycleError where
  involvedNodeIds : List Nat
  deriving DecidableEq, Repr

/-- Modelled from the spec: one step of a Render Sequence; the graph sources
are absent. The buffer plans of a step are left out: the order of the steps
does not depend on them. -/
structure RenderStep where
  nodeId : Nat
  deriving DecidableEq, Repr

/-- Modelled from the spec: the Render Sequence, `{ steps }`; the graph sources
are absent. -/
structure RenderSequence where
  steps : List RenderStep
  deriving DecidableEq, Repr

namespace Graph

/-- Modelled from the spec: the ids of the nodes of the graph, each once (the
nodes are a set keyed by id); the graph sources are absent. -/
def nodeIds (g : Graph) : List Nat := (g.nodes.map Node.id).dedup

/-- Modelled from the spec: the node with a given id; the graph sources are absent. -/
def findNode (g : Graph) (nodeId : Nat) : Option Node :=
  g.nodes.find? (fun n => decide (n.id = nodeId))

/-- Modelled from the spec: the port a (node id, port index) pair refers to;
the graph sources are absent. -/
def findPort (g : Graph) (nodeId portIndex : Nat) : Option Port :=
  match g.findNode nodeId with
  | none => none
  | some n => n.portList.get? portIndex

/-- Modelled from the spec: whether a connection is an Audio or Control
connection, by the type of its source port; the graph sources are absent. -/
def isOrdering (g : Graph) (a : Arc) : Bool :=
  match g.findPort a.sourceNodeId a.sourcePortIndex with
  | some p => decide (p.type = PortType.Audio) || decide (p.type = PortType.Control)
  | none => false

/-- Modelled from the spec: the dependency graph of section 4.3, as
(supplier, consumer) pairs: node A depends on node B if an Audio or Control
connection runs from B to A; the graph sources are absent. -/
def dependencies (g : Graph) : List (Nat × Nat) :=
  (g.connections.filter g.isOrdering).map (fun a => (a.sourceNodeId, a.destNodeId))

/-- A topology has no cycle among its Audio/Control connections: no node
reaches itself along one or more dependency edges. -/
def Acyclic (g : Graph) : Prop :=
  ∀ n, ¬ Relation.TransGen (fun b a => (b, a) ∈ g.dependencies) n n

end Graph

namespace ConnectionSet

/-- Modelled from the spec: `tryAdd` of section 4.2, validating port existence,
direction and type compatibility, duplicates, and the single Audio source per
input; the graph sources are absent. -/
def tryAdd (g : Graph) (arc : Arc) : Except ConnectionError Graph :=
  match g.findPort arc.sourceNodeId arc.sourcePortIndex,
        g.findPort arc.destNodeId arc.destPortIndex with
  | some src, some dst =>
      if src.direction ≠ Direction.Output ∨ dst.direction ≠ Direction.Input
          ∨ src.type ≠ dst.type then
        Except.error ConnectionError.TypeMismatch
      else if arc ∈ g.connections then
        Except.error ConnectionError.DuplicateConnection
      else if dst.type = PortType.Audio ∧
          g.connections.any (fun c =>
            decide (c.destNodeId = arc.destNodeId ∧ c.destPortIndex = arc.destPortIndex)) then
        Except.error ConnectionError.InputAlreadyDriven
      else
        Except.ok { g with connections := g.connections ++ [arc] }
  | _, _ => Except.error ConnectionError.InvalidPort

end ConnectionSet

namespace RenderSequenceBuilder

/-- Modelled from the spec: the in-degree of a node among the nodes not yet
placed: the number of dependency edges into it from such nodes; the graph
sources are absent. -/
def inDegree (edges : List (Nat × Nat)) (remaining : List Nat) (n : Nat) : Nat :=
  (edges.filter (fun e => decide (e.2 = n) && decide (e.1 ∈ remaining))).length

/-- Modelled from the spec: the nodes not yet placed that have in-degree zero;
the graph sources are absent. -/
def readyNodes (edges : List (Nat × Nat)) (remaining : List Nat) : List Nat :=
  remaining.filter (fun n => decide (inDegree edges remaining n = 0))

/-- Modelled from the spec: the selection of Kahn's algorithm, the node with
in-degree zero and the lowest id among ties; the graph sources are absent. -/
def selectNext (edges : List (Nat × Nat)) (remaining : List Nat) : Option Nat :=
  (readyNodes edges remaining).min?

/-- Modelled from the spec: Kahn's algorithm of section 4.3 on the nodes not
yet placed, one selection per unit of fuel. It returns the order, or, when no
node has in-degree zero and nodes remain, that non-empty residual set, which
shows that the graph contains a cycle; the graph sources are absent. -/
def kahn (edges : List (Nat × Nat)) : Nat → List Nat → Except (List Nat) (List Nat)
  | _, [] => Except.ok []
  | 0, n :: rest => Except.error (n :: rest)
  | fuel + 1, n :: rest =>
      match selectNext edges (n :: rest) with
      | none => Except.error (n :: rest)
      | some m =>
          match kahn edges fuel ((n :: rest).filter (fun k => decide (k ≠ m))) with
          | Except.ok order => Except.ok (m :: order)
          | Except.error err => Except.error err

/-- Modelled from the spec: the consumers a list of nodes supplies, added to
that list: one round of following dependency edges; the graph sources are
absent. -/
def expand (edges : List (Nat × Nat)) (visited : List Nat) : List Nat :=
  visited ++ (edges.filter (fun e => decide (e.1 ∈ visited))).map Prod.snd

/-- Modelled from the spec: `fuel` rounds of following dependency edges; the
graph sources are absent. -/
def closure (edges : List (Nat × Nat)) : Nat → List Nat → List Nat
  | 0, visited => visited
  | fuel + 1, visited => closure edges fuel (expand edges visited)

/-- Modelled from the spec: the nodes a node supplies directly; the graph
sources are absent. -/
def consumers (edges : List (Nat × Nat)) (n : Nat) : List Nat :=
  (edges.filter (fun e => decide (e.1 = n))).map Prod.snd

/-- Modelled from the spec: the nodes a node supplies directly or through
other nodes. Every round that is not the last one reaches a consumer not seen
before, so one round per dependency edge is enough; the graph sources are
absent. -/
def descendants (edges : List (Nat × Nat)) (n : Nat) : List Nat :=
  closure edges edges.length (consumers edges n)

/-- Modelled from the spec: a node is involved in a cycle when it supplies
itself, directly or through other nodes; the graph sources are absent. -/
def onCycle (edges : List (Nat × Nat)) (n : Nat) : Bool :=
  decide (n ∈ descendants edges n)

/-- Modelled from the spec: the offending nodes enumerated by a `CycleError`:
the nodes of the residual set that are involved in a cycle, in the order of
the residual set; the graph sources are absent. -/
def offendingNodes (edges : List (Nat × Nat)) (residual : List Nat) : List Nat :=
  residual.filter (onCycle edges)

/-- Modelled from the spec: the order in which the builder places the nodes of
a graph, or the residual set; each selection places one node, so the number of
nodes is enough fuel; the graph sources are absent. -/
def buildOrder (g : Graph) : Except (List Nat) (List Nat) :=
  kahn g.dependencies g.nodeIds.length g.nodeIds

/-- Modelled from the spec: the Render Sequence Builder of section 4.3: a new
Render Sequence, or a `CycleError` enumerating the offending nodes; the graph
sources are absent. -/
def build (g : Graph) : Except CycleError RenderSequence :=
  match buildOrder g with
  | Except.ok order => Except.ok { steps := order.map RenderStep.mk }
  | Except.error residual =>
      Except.error { involvedNodeIds := offendingNodes g.dependencies residual }

end RenderSequenceBuilder

/-- Modelled from the spec: the node ids of a Render Sequence in execution
order; the graph sources are absent. -/
def RenderSequence.order (seq : RenderSequence) : List Nat := seq.steps.map RenderStep.nodeId

/-- Modelled from the spec: the state of the Graph Engine seen by the control
thread: the live topology and the published Render Sequence; the graph sources
are absent. -/
structure GraphEngine where
  graph : Graph
  published : RenderSequence
  deriving DecidableEq, Repr

/-- Modelled from the spec: what `connect` returns to the caller: success, a
`ConnectionError` or a `CycleError`; the graph sources are absent. -/
inductive ConnectResult where
  | ok
  | connectionError (err : ConnectionError)
  | cycleError (err : CycleError)
  deriving DecidableEq, Repr

namespace GraphEngine

/-- Modelled from the spec: the builder assigns each node its index in the
render order; the graph sources are absent. -/
def assignRenderOrder (order : List Nat) (nodes : List Node) : List Node :=
  nodes.map (fun n => { n with renderOrderIndex := (order.indexOf n.id : Nat) })

/-- Modelled from the spec: `connect (arc)` of section 4.4. The arc is
validated by the connection set, the builder runs on the resulting topology,
and a `CycleError` cancels the mutation before publication: the topology and
the published sequence stay as they were; the graph sources are absent. -/
def connect (e : GraphEngine) (arc : Arc) : ConnectResult × GraphEngine :=
  match ConnectionSet.tryAdd e.graph arc with
  | Except.error err => (ConnectResult.connectionError err, e)
  | Except.ok g =>
      match RenderSequenceBuilder.build g with
      | Except.error err => (ConnectResult.cycleError err, e)
      | Except.ok seq =>
          (ConnectResult.ok,
            { graph := { g with nodes := assignRenderOrder seq.order g.nodes }
              published := seq })

end GraphEngine

/-! ## Scenarios of the specification -/

/-- An audio output port named `out`. -/
def audioOut (channel : Nat) : Port :=
  { type := PortType.Audio, direction := Direction.Output, channel := channel,
    name := "out", displayName := "Out" }

/-- An audio input port named `in`. -/
def audioIn (channel : Nat) : Port :=
  { type := PortType.Audio, direction := Direction.Input, channel := channel,
    name := "in", displayName := "In" }

/-- A node with the given id and ports, enabled, not bypassed. -/
def mkNode (id : Nat) (portList : List Port) : Node :=
  { id := id, portList := portList, enabled := true, bypassed := false,
    renderOrderIndex := 0 }

/-- The scenario of section 8: A (id 1, one audio out), B (id 2, one in, one
out), C (id 3, two in, one out), with arcs A→B, B→C (in 0), A→C (in 1). -/
def scenarioABC : Graph :=
  { nodes := [mkNode 1 [audioOut 0], mkNode 2 [audioIn 0, audioOut 0],
              mkNode 3 [audioIn 0, audioIn 1, audioOut 0]]
    connections := [⟨1, 0, 2, 0⟩, ⟨2, 1, 3, 0⟩, ⟨1, 0, 3, 1⟩] }

/-- The engine of the cycle scenario of section 8 before any connection: A
(id 1) and B (id 2), each with one audio input and one audio output. -/
def scenarioAB : GraphEngine :=
  { graph := { nodes := [mkNode 1 [audioIn 0, audioOut 0], mkNode 2 [audioIn 0, audioOut 0]]
               connections := [] }
    published := { steps := [⟨1⟩, ⟨2⟩] } }

/-- The arc A→B of the cycle scenario. -/
def arcAB : Arc := ⟨1, 1, 2, 0⟩

/-- The arc B→A of the cycle scenario. -/
def arcBA : Arc := ⟨2, 1, 1, 0⟩

/-- The engine of the cycle scenario after `connect` of the arc A→B. -/
def scenarioABConnected : GraphEngine := (scenarioAB.connect arcAB).2

/-- The topology of the cycle scenario with both arcs, A→B and B→A. -/
def scenarioABCycle : Graph :=
  { scenarioABConnected.graph with connections := [arcAB, arcBA] }

/-- An engine with five nodes and no connection yet, stored in the order 1, 2,
3, 0, 7: node 1 has two audio inputs and one output, node 0 one output, the
others one input and one output. -/
def scenarioFive : GraphEngine :=
  { graph := { nodes := [mkNode 1 [audioIn 0, audioIn 1, audioOut 0],
                         mkNode 2 [audioIn 0, audioOut 0],
                         mkNode 3 [audioIn 0, audioOut 0],
                         mkNode 0 [audioOut 0],
                         mkNode 7 [audioIn 0, audioOut 0]]
               connections := [] }
    published := { steps := [⟨0⟩, ⟨1⟩, ⟨2⟩, ⟨3⟩, ⟨7⟩] } }

/-- The arc 0→1 (input 0 of node 1). -/
def arc01 : Arc := ⟨0, 0, 1, 0⟩

/-- The arc 1→2. -/
def arc12 : Arc := ⟨1, 2, 2, 0⟩

/-- The arc 2→3. -/
def arc23 : Arc := ⟨2, 1, 3, 0⟩

/-- The arc 2→1 (input 1 of node 1), which closes the cycle between 1 and 2. -/
def arc21 : Arc := ⟨2, 1, 1, 1⟩

/-- The five-node engine after `connect` of 0→1, 1→2 and 2→3: node 0 is
upstream of node 1, node 3 downstream of node 2, node 7 unconnected. -/
def scenarioFiveConnected : GraphEngine :=
  (((scenarioFive.connect arc01).2.connect arc12).2.connect arc23).2

/-- The five-node topology with the arc 2→1 added. -/
def scenarioFiveCycle : Graph :=
  { scenarioFiveConnected.graph with
    connections := [arc01, arc12, arc23, arc21] }

end Element

/-! # Theorems -/

namespace Element

namespace OSCReceiverNode

variable {Rate OSCMessage MidiMessage MidiPipe : Type}

/-- The loop of `prepareToRender` appends one `addMessageToQueue` entry per
pending message, in queue order. -/
theorem forwardMessages_eq (f : OSCMessage → MidiMessage) (msgs : List OSCMessage)
    (collector : List (CollectorCall Rate MidiMessage)) :
    forwardMessages f msgs collector
      = collector ++ msgs.map (fun m => CollectorCall.addMessageToQueue (f m)) := by
  induction msgs generalizing collector with
  | nil => simp [forwardMessages]
  | cons m rest ih => simp [forwardMessages, ih]

/-- Unfolding of `run` on a non-empty sequence of calls. -/
theorem run_cons (f : OSCMessage → MidiMessage) (s : OSCReceiverNode Rate OSCMessage MidiMessage)
    (c : Call Rate OSCMessage MidiPipe) (calls : List (Call Rate OSCMessage MidiPipe)) :
    run f s (c :: calls) = run f (step f s c) calls := rfl

/-- After any sequence of calls the queue holds at most the messages it held
before plus those received during the sequence. -/
theorem run_length_le (f : OSCMessage → MidiMessage)
    (calls : List (Call Rate OSCMessage MidiPipe))
    (s : OSCReceiverNode Rate OSCMessage MidiMessage) :
    (run f s calls).oscMessages.length ≤ s.oscMessages.length + receivedCount calls := by
  induction calls generalizing s with
  | nil => simp [run, receivedCount]
  | cons c rest ih =>
    rw [run_cons]
    refine le_trans (ih _) ?_
    cases c with
    | oscMessageReceived m =>
      simp only [step, oscMessageReceived, receivedCount, List.length_append,
        List.length_singleton]
      omega
    | prepareToRender sr mbs =>
      simp only [step, prepareToRender, receivedCount, List.length_nil]
      omega
    | render audio midi =>
      simp [step, render, receivedCount]

/-- Receiving `k` messages in a row lengthens the queue by `k`. -/
theorem run_replicate_received (f : OSCMessage → MidiMessage) (m : OSCMessage) (k : Nat)
    (s : OSCReceiverNode Rate OSCMessage MidiMessage) :
    (run f s (List.replicate k
        (Call.oscMessageReceived m : Call Rate OSCMessage MidiPipe))).oscMessages.length
      = s.oscMessages.length + k := by
  induction k generalizing s with
  | zero => simp [run]
  | succ k ih =>
    rw [List.replicate_succ, run_cons, ih]
    simp only [step, oscMessageReceived, List.length_append, List.length_singleton]
    omega

/-- Once the collector is initialised, `prepareToRender` keeps the flag set
and the latched sample rate. -/
theorem prepareAll_latched (f : OSCMessage → MidiMessage) (calls : List (Rate × Int))
    (s : OSCReceiverNode Rate OSCMessage MidiMessage)
    (h : s.outputMidiMessagesInitDone = true) :
    (prepareAll f s calls).currentSampleRate = s.currentSampleRate := by
  induction calls generalizing s with
  | nil => rfl
  | cons c rest ih =>
    have hstep : prepareAll f s (c :: rest) = prepareAll f (prepareToRender f s c.1 c.2) rest := rfl
    rw [hstep, ih _ (by simp [prepareToRender, h])]
    simp [prepareToRender, h]

/-- C1, as stated, fails: a node with one pending message still has it after
`render` on a block of 512 samples. -/
theorem render_drains_queue_counterexample :
    ¬ ∀ (s : OSCReceiverNode Nat Nat Nat) (audio : AudioSampleBuffer) (midi : Unit),
        audio.getNumSamples > 0 → (render s audio midi).1.oscMessages = [] := by
  intro h
  have h1 := h (oscMessageReceived (construct 44100 9000 "") 7) ⟨2, 512⟩ () (by decide)
  simp [render, oscMessageReceived, construct] at h1

/-- C1 (amended): the pending queue is drained once per `prepareToRender` call,
not by `render`: `oscMessages` is empty when `prepareToRender` returns, and
`render` returns the node, the audio buffer and the MIDI pipe as they were, for
every block size. -/
theorem queue_drained_by_prepareToRender_not_render (f : OSCMessage → MidiMessage)
    (s : OSCReceiverNode Rate OSCMessage MidiMessage) (sampleRate : Rate)
    (maxBufferSize : Int) (audio : AudioSampleBuffer) (midi : MidiPipe) :
    (prepareToRender f s sampleRate maxBufferSize).oscMessages = []
      ∧ render s audio midi = (s, audio, midi) := by
  constructor
  · rfl
  · simp [render]

/-- C2: `createPorts` is idempotent (on the port list, on the `createdPorts`
flag, and on the whole node), and `prepareToRender` leaves the port list and
the flag as they were. -/
theorem createPorts_idempotent_ports_stable (f : OSCMessage → MidiMessage)
    (s : OSCReceiverNode Rate OSCMessage MidiMessage) (sampleRate : Rate)
    (maxBufferSize : Int) :
    (createPorts (createPorts s)).ports = (createPorts s).ports
      ∧ (createPorts (createPorts s)).createdPorts = (createPorts s).createdPorts
      ∧ createPorts (createPorts s) = createPorts s
      ∧ (prepareToRender f s sampleRate maxBufferSize).ports = s.ports
      ∧ (prepareToRender f s sampleRate maxBufferSize).createdPorts = s.createdPorts := by
  have hidem : createPorts (createPorts s) = createPorts s := by
    cases hc : s.createdPorts <;> simp [createPorts, hc]
  refine ⟨by rw [hidem], by rw [hidem], hidem, ?_, ?_⟩
  · cases hi : s.outputMidiMessagesInitDone <;> simp [prepareToRender, hi]
  · cases hi : s.outputMidiMessagesInitDone <;> simp [prepareToRender, hi]

/-- C3: on a node whose `createdPorts` flag is clear, `createPorts` leaves
exactly two ports whatever the list held before: a MIDI input `midi_in` /
`MIDI In` at index 0 and a MIDI output `midi_out` / `MIDI Out` at index 1, both
on channel 0; every channel is non-negative and the (direction, type, channel)
identities are pairwise distinct. The flag is set on return. -/
theorem createPorts_layout (s : OSCReceiverNode Rate OSCMessage MidiMessage)
    (h : s.createdPorts = false) :
    (createPorts s).ports
        = [{ type := PortType.Midi, index := 0, channel := 0, symbol := "midi_in",
             name := "MIDI In", input := true },
           { type := PortType.Midi, index := 1, channel := 0, symbol := "midi_out",
             name := "MIDI Out", input := false }]
      ∧ (∀ p ∈ (createPorts s).ports, 0 ≤ p.channel)
      ∧ ((createPorts s).ports.map PortDescription.identity).Nodup
      ∧ (createPorts s).createdPorts = true := by
  have hp : (createPorts s).ports
        = [{ type := PortType.Midi, index := 0, channel := 0, symbol := "midi_in",
             name := "MIDI In", input := true },
           { type := PortType.Midi, index := 1, channel := 0, symbol := "midi_out",
             name := "MIDI Out", input := false }] := by
    simp [createPorts, h, PortList.add, PortList.clearQuick]
  refine ⟨hp, ?_, ?_, ?_⟩
  · rw [hp]
    intro p hmem
    simp only [List.mem_cons, List.mem_singleton, List.not_mem_nil, or_false] at hmem
    rcases hmem with rfl | rfl <;> decide
  · rw [hp]
    decide
  · simp [createPorts, h]

/-- C3 at a node that held three stale ports with the flag clear. -/
theorem createPorts_layout_witness :
    (({ (construct 44100 9000 "" : OSCReceiverNode Nat Nat Nat) with
          ports := [⟨PortType.Audio, 5, -1, "a", "A", true⟩,
                    ⟨PortType.Audio, 5, -1, "a", "A", true⟩,
                    ⟨PortType.Control, 2, 3, "c", "C", false⟩] }
        : OSCReceiverNode Nat Nat Nat).createdPorts = false)
      ∧ (createPorts
          ({ (construct 44100 9000 "" : OSCReceiverNode Nat Nat Nat) with
              ports := [⟨PortType.Audio, 5, -1, "a", "A", true⟩,
                        ⟨PortType.Audio, 5, -1, "a", "A", true⟩,
                        ⟨PortType.Control, 2, 3, "c", "C", false⟩] }
            : OSCReceiverNode Nat Nat Nat)).ports
          = [⟨PortType.Midi, 0, 0, "midi_in", "MIDI In", true⟩,
             ⟨PortType.Midi, 1, 0, "midi_out", "MIDI Out", false⟩] :=
  ⟨rfl, (createPorts_layout _ rfl).1⟩

/-- C4, as stated, fails: no number bounds the queue length over the states
reachable from a freshly constructed node; `N + 1` messages received in a row
leave `N + 1` pending entries. -/
theorem queue_bounded_counterexample :
    ¬ ∃ N : Nat, ∀ calls : List (Call Nat Nat Unit),
        (run (fun m : Nat => m)
          (construct 44100 9000 "" : OSCReceiverNode Nat Nat Nat) calls).oscMessages.length ≤ N := by
  rintro ⟨N, hN⟩
  have h1 := hN (List.replicate (N + 1) (Call.oscMessageReceived 7))
  rw [run_replicate_received] at h1
  simp [construct] at h1

/-- C4 (amended): the queue has no fixed capacity. In every state reachable
from a freshly constructed node its length is at most the number of
`oscMessageReceived` calls made so far, and `k` messages received in a row
leave exactly `k` pending entries, for every `k`. -/
theorem queue_length_le_received (f : OSCMessage → MidiMessage) (rate0 : Rate)
    (port0 : Int) (host0 : String) (calls : List (Call Rate OSCMessage MidiPipe))
    (m : OSCMessage) (k : Nat) :
    (run f (construct rate0 port0 host0 : OSCReceiverNode Rate OSCMessage MidiMessage)
        calls).oscMessages.length ≤ receivedCount calls
      ∧ (run f (construct rate0 port0 host0 : OSCReceiverNode Rate OSCMessage MidiMessage)
          (List.replicate k
            (Call.oscMessageReceived m : Call Rate OSCMessage MidiPipe))).oscMessages.length
          = k := by
  constructor
  · have h := run_length_le f calls
      (construct rate0 port0 host0 : OSCReceiverNode Rate OSCMessage MidiMessage)
    simpa [construct] using h
  · rw [run_replicate_received]
    simp [construct]

/-- C7: `oscMessageReceived m` appends exactly `m` at the end of `oscMessages`
and touches nothing else; `prepareToRender` issues, after the `reset` of a
first call, exactly one `addMessageToQueue (processOscToMidiMessage mi)` per
pending message on `outputMidiMessages`, in queue order, and leaves
`oscMessages` empty. -/
theorem osc_events_accumulate_and_hand_over (f : OSCMessage → MidiMessage)
    (s : OSCReceiverNode Rate OSCMessage MidiMessage) (m : OSCMessage)
    (sampleRate : Rate) (maxBufferSize : Int) :
    (oscMessageReceived s m).oscMessages = s.oscMessages ++ [m]
      ∧ oscMessageReceived s m = { s with oscMessages := s.oscMessages ++ [m] }
      ∧ (prepareToRender f s sampleRate maxBufferSize).outputMidiMessages
          = (if s.outputMidiMessagesInitDone = true then s.outputMidiMessages
              else s.outputMidiMessages ++ [CollectorCall.reset sampleRate])
            ++ s.oscMessages.map (fun msg => CollectorCall.addMessageToQueue (f msg))
      ∧ (prepareToRender f s sampleRate maxBufferSize).oscMessages = [] := by
  refine ⟨rfl, rfl, ?_, rfl⟩
  cases hi : s.outputMidiMessagesInitDone <;>
    simp [prepareToRender, hi, forwardMessages_eq]

/-- C8: `prepareToRender` latches the sample rate on its first call only. With
the flag clear it stores the given rate, calls `reset` with it on the collector
(before forwarding the pending messages) and sets the flag; with the flag set
it keeps the stored rate and the flag and issues no `reset`. Hence after any
non-empty sequence of `prepareToRender` calls on a freshly constructed node the
stored rate is the rate of the first call. -/
theorem prepareToRender_latches_rate (f : OSCMessage → MidiMessage)
    (s : OSCReceiverNode Rate OSCMessage MidiMessage) (sampleRate : Rate)
    (maxBufferSize : Int) :
    (s.outputMidiMessagesInitDone = false →
        (prepareToRender f s sampleRate maxBufferSize).currentSampleRate = sampleRate
          ∧ (prepareToRender f s sampleRate maxBufferSize).outputMidiMessagesInitDone = true
          ∧ (prepareToRender f s sampleRate maxBufferSize).outputMidiMessages
              = s.outputMidiMessages ++ [CollectorCall.reset sampleRate]
                ++ s.oscMessages.map (fun msg => CollectorCall.addMessageToQueue (f msg)))
      ∧ (s.outputMidiMessagesInitDone = true →
          (prepareToRender f s sampleRate maxBufferSize).currentSampleRate
              = s.currentSampleRate
            ∧ (prepareToRender f s sampleRate maxBufferSize).outputMidiMessagesInitDone = true
            ∧ (prepareToRender f s sampleRate maxBufferSize).outputMidiMessages
                = s.outputMidiMessages
                  ++ s.oscMessages.map (fun msg => CollectorCall.addMessageToQueue (f msg)))
      ∧ (∀ (rate0 : Rate) (port0 : Int) (host0 : String) (first : Rate × Int)
            (rest : List (Rate × Int)),
          (prepareAll f
              (construct rate0 port0 host0 : OSCReceiverNode Rate OSCMessage MidiMessage)
              (first :: rest)).currentSampleRate = first.1) := by
  refine ⟨?_, ?_, ?_⟩
  · intro hi
    simp [prepareToRender, hi, forwardMessages_eq]
  · intro hi
    simp [prepareToRender, hi, forwardMessages_eq]
  · intro rate0 port0 host0 first rest
    have hstep : prepareAll f
          (construct rate0 port0 host0 : OSCReceiverNode Rate OSCMessage MidiMessage)
          (first :: rest)
        = prepareAll f (prepareToRender f (construct rate0 port0 host0) first.1 first.2) rest :=
      rfl
    rw [hstep, prepareAll_latched f rest _ (by simp [prepareToRender, construct])]
    simp [prepareToRender, construct]

/-- C8 on a fresh node (stored rate 0) prepared at 44100 and on the resulting
node prepared again at 48000: the stored rate is 44100 both times. -/
theorem prepareToRender_latches_rate_witness :
    (prepareToRender (fun m : Nat => m)
        (construct 0 9000 "" : OSCReceiverNode Nat Nat Nat) 44100 512).currentSampleRate = 44100
      ∧ (prepareToRender (fun m : Nat => m)
          (prepareToRender (fun m : Nat => m)
            (construct 0 9000 "" : OSCReceiverNode Nat Nat Nat) 44100 512)
          48000 512).currentSampleRate = 44100 :=
  ⟨((prepareToRender_latches_rate (fun m : Nat => m)
      (construct 0 9000 "" : OSCReceiverNode Nat Nat Nat) 44100 512).1 rfl).1,
   ((prepareToRender_latches_rate (fun m : Nat => m)
      (prepareToRender (fun m : Nat => m)
        (construct 0 9000 "" : OSCReceiverNode Nat Nat Nat) 44100 512) 48000 512).2.1 rfl).1⟩

/-- C9: `isValidOscPort port` is true exactly when `1 ≤ port ≤ 65535`; the
answer is the same for every node state, and the method, being `const` and
returning a `bool`, has no state to write. -/
theorem isValidOscPort_iff (s t : OSCReceiverNode Rate OSCMessage MidiMessage) (port : Int) :
    (isValidOscPort s port = true ↔ 1 ≤ port ∧ port ≤ 65535)
      ∧ isValidOscPort s port = isValidOscPort t port := by
  constructor
  · simp only [isValidOscPort, Bool.and_eq_true, decide_eq_true_eq]
    omega
  · rfl

end OSCReceiverNode

namespace AudioMixerProcessor

/-- The output loop accepts exactly the lists of two-channel buses. -/
theorem outputLoop_iff (buses : List AudioChannelSet) :
    outputLoop buses = true ↔ ∀ bus ∈ buses, bus.size = 2 := by
  induction buses with
  | nil => simp [outputLoop]
  | cons b rest ih =>
    by_cases hb : b.size = 2 <;> simp [outputLoop, hb, ih]

/-- The input loop accepts exactly when all its buses and all output buses
have two channels. -/
theorem inputLoop_iff (outs buses : List AudioChannelSet) :
    inputLoop outs buses = true
      ↔ (∀ bus ∈ buses, bus.size = 2) ∧ (∀ bus ∈ outs, bus.size = 2) := by
  induction buses with
  | nil => simp [inputLoop, outputLoop_iff]
  | cons b rest ih =>
    by_cases hb : b.size = 2 <;> simp [inputLoop, hb, ih, and_assoc]

/-- C10: `isBusesLayoutSupported` is true exactly when every input bus and
every output bus has 2 channels; the layout without buses is supported, and a
layout holding a bus with one channel, input or output, is rejected. -/
theorem isBusesLayoutSupported_iff (layout : BusesLayout) :
    (isBusesLayoutSupported layout = true
        ↔ (∀ bus ∈ layout.inputBuses, bus.size = 2)
          ∧ (∀ bus ∈ layout.outputBuses, bus.size = 2))
      ∧ isBusesLayoutSupported { inputBuses := [], outputBuses := [] } = true
      ∧ ((∃ bus, (bus ∈ layout.inputBuses ∨ bus ∈ layout.outputBuses) ∧ bus.size = 1)
          → isBusesLayoutSupported layout = false) := by
  have hiff := inputLoop_iff layout.outputBuses layout.inputBuses
  refine ⟨hiff, rfl, ?_⟩
  rintro ⟨bus, hmem, hsize⟩
  cases hres : isBusesLayoutSupported layout with
  | false => rfl
  | true =>
    exfalso
    have hall := hiff.mp hres
    rcases hmem with hmem | hmem
    · have := hall.1 bus hmem
      omega
    · have := hall.2 bus hmem
      omega

/-- C10 at a layout with a stereo input bus and a mono output bus: rejected. -/
theorem isBusesLayoutSupported_iff_witness :
    isBusesLayoutSupported { inputBuses := [⟨[1, 2]⟩], outputBuses := [⟨[3]⟩] } = false :=
  (isBusesLayoutSupported_iff { inputBuses := [⟨[1, 2]⟩], outputBuses := [⟨[3]⟩] }).2.2
    ⟨⟨[3]⟩, Or.inr (by decide), rfl⟩

end AudioMixerProcessor

namespace RenderSequenceBuilder

/-- A node has in-degree zero among the remaining nodes exactly when no
remaining node supplies it. -/
theorem inDegree_eq_zero_iff (edges : List (Nat × Nat)) (remaining : List Nat) (n : Nat) :
    inDegree edges remaining n = 0 ↔ ∀ b ∈ remaining, (b, n) ∉ edges := by
  unfold inDegree
  rw [List.length_eq_zero, List.filter_eq_nil_iff]
  constructor
  · intro h b hb hmem
    exact h (b, n) hmem (by simp [hb])
  · rintro h ⟨b, a⟩ hmem hcond
    simp only [Bool.and_eq_true, decide_eq_true_eq] at hcond
    obtain ⟨rfl, hb⟩ := hcond
    exact h b hb hmem

/-- The selected node is a remaining node without a remaining supplier, and
it has the lowest id among such nodes. -/
theorem selectNext_some {edges : List (Nat × Nat)} {remaining : List Nat} {m : Nat}
    (h : selectNext edges remaining = some m) :
    m ∈ remaining ∧ (∀ b ∈ remaining, (b, m) ∉ edges)
      ∧ ∀ k ∈ remaining, (∀ b ∈ remaining, (b, k) ∉ edges) → m ≤ k := by
  unfold selectNext at h
  rw [List.min?_eq_some_iff'] at h
  obtain ⟨hmem, hmin⟩ := h
  unfold readyNodes at hmem hmin
  simp only [List.mem_filter, decide_eq_true_eq, inDegree_eq_zero_iff] at hmem hmin
  exact ⟨hmem.1, hmem.2, fun k hk hz => hmin k ⟨hk, hz⟩⟩

/-- When nothing can be selected, every remaining node has a remaining
supplier. -/
theorem selectNext_none {edges : List (Nat × Nat)} {remaining : List Nat}
    (h : selectNext edges remaining = none) :
    ∀ n ∈ remaining, ∃ b ∈ remaining, (b, n) ∈ edges := by
  unfold selectNext at h
  rw [List.min?_eq_none_iff] at h
  unfold readyNodes at h
  rw [List.filter_eq_nil_iff] at h
  intro n hn
  have hz := h n hn
  simp only [decide_eq_true_eq, inDegree_eq_zero_iff] at hz
  push_neg at hz
  exact hz

/-- Removing a remaining node shortens the list of remaining nodes. -/
theorem length_remove_lt {remaining : List Nat} {m : Nat} (hm : m ∈ remaining) :
    (remaining.filter (fun k => decide (k ≠ m))).length < remaining.length := by
  rw [List.length_filter_lt_length_iff_exists]
  exact ⟨m, hm, by simp⟩

/-- A node on a dependency cycle has a supplier that is on a cycle too. -/
theorem cycle_has_cyclic_supplier {edges : List (Nat × Nat)} {c : Nat}
    (h : Relation.TransGen (fun b a => (b, a) ∈ edges) c c) :
    ∃ p, (p, c) ∈ edges ∧ Relation.TransGen (fun b a => (b, a) ∈ edges) p p := by
  obtain ⟨p, hcp, hpc⟩ := Relation.TransGen.tail'_iff.mp h
  exact ⟨p, hpc, Relation.TransGen.head' hpc hcp⟩

/-- Among finitely many nodes without a dependency cycle, some node has no
supplier among them. -/
theorem selectNext_isSome_of_acyclic (edges : List (Nat × Nat))
    (hac : ∀ n, ¬ Relation.TransGen (fun b a => (b, a) ∈ edges) n n)
    (n : Nat) (rest : List Nat) :
    ∃ m, selectNext edges (n :: rest) = some m := by
  cases hsel : selectNext edges (n :: rest) with
  | some m => exact ⟨m, rfl⟩
  | none =>
    exfalso
    have hsup := selectNext_none hsel
    let R : {k // k ∈ n :: rest} → {k // k ∈ n :: rest} → Prop :=
      fun x y => Relation.TransGen (fun b a => (b, a) ∈ edges) x.1 y.1
    haveI : IsTrans {k // k ∈ n :: rest} R := ⟨fun _ _ _ hxy hyz => hxy.trans hyz⟩
    haveI : IsIrrefl {k // k ∈ n :: rest} R := ⟨fun x hx => hac x.1 hx⟩
    have hwf : WellFounded R := Finite.wellFounded_of_trans_of_irrefl R
    obtain ⟨m, -, hmin⟩ := hwf.has_min Set.univ ⟨⟨n, List.mem_cons_self n rest⟩, trivial⟩
    obtain ⟨b, hb, hbm⟩ := hsup m.1 m.2
    exact hmin ⟨b, hb⟩ trivial (Relation.TransGen.single hbm)

/-- Unfolding of `kahn` on a non-empty list with fuel left. -/
theorem kahn_succ_cons (edges : List (Nat × Nat)) (fuel n : Nat) (rest : List Nat) :
    kahn edges (fuel + 1) (n :: rest)
      = match selectNext edges (n :: rest) with
        | none => Except.error (n :: rest)
        | some m =>
            match kahn edges fuel ((n :: rest).filter (fun k => decide (k ≠ m))) with
            | Except.ok order => Except.ok (m :: order)
            | Except.error err => Except.error err := by
  rw [kahn]

/-- Whenever Kahn's algorithm returns an order, the order lists the remaining
nodes, each once, and places every supplier before its consumer. -/
theorem kahn_ok_spec (edges : List (Nat × Nat)) :
    ∀ (fuel : Nat) (remaining order : List Nat),
      kahn edges fuel remaining = Except.ok order →
      order.Nodup ∧ (∀ k, k ∈ order ↔ k ∈ remaining)
        ∧ ∀ b a, (b, a) ∈ edges → b ∈ remaining → a ∈ remaining →
            order.indexOf b < order.indexOf a := by
  intro fuel
  induction fuel with
  | zero =>
    intro remaining order h
    cases remaining with
    | nil =>
      simp only [kahn, Except.ok.injEq] at h
      subst h
      simp
    | cons n rest => simp [kahn] at h
  | succ fuel ih =>
    intro remaining order h
    cases remaining with
    | nil =>
      simp only [kahn, Except.ok.injEq] at h
      subst h
      simp
    | cons n rest =>
      rw [kahn_succ_cons] at h
      split at h
      · exact absurd h (by simp)
      · rename_i m hsel
        split at h
        · rename_i order1 hrec
          simp only [Except.ok.injEq] at h
          subst h
          obtain ⟨hnodup, hmem, hord⟩ := ih _ _ hrec
          obtain ⟨hm, hzero, -⟩ := selectNext_some hsel
          have hmem1 : ∀ k, k ∈ order1 ↔ k ∈ n :: rest ∧ k ≠ m := by
            intro k
            rw [hmem k]
            simp [List.mem_filter]
          refine ⟨?_, ?_, ?_⟩
          · rw [List.nodup_cons]
            refine ⟨?_, hnodup⟩
            intro hin
            exact ((hmem1 m).mp hin).2 rfl
          · intro k
            rw [List.mem_cons, hmem1 k]
            constructor
            · rintro (rfl | ⟨hk, -⟩)
              · exact hm
              · exact hk
            · intro hk
              by_cases hkm : k = m
              · exact Or.inl hkm
              · exact Or.inr ⟨hk, hkm⟩
          · intro b a hedge hb ha
            have ham : a ≠ m := by
              rintro rfl
              exact hzero b hb hedge
            have ha1 : a ∈ order1 := (hmem1 a).mpr ⟨ha, ham⟩
            by_cases hbm : b = m
            · subst hbm
              rw [List.indexOf_cons_self, List.indexOf_cons_ne _ (Ne.symm ham)]
              exact Nat.succ_pos _
            · rw [List.indexOf_cons_ne _ (Ne.symm hbm), List.indexOf_cons_ne _ (Ne.symm ham)]
              have hb1 : b ∈ (n :: rest).filter (fun k => decide (k ≠ m)) := by
                simp only [List.mem_filter, decide_eq_true_eq]
                exact ⟨hb, hbm⟩
              have ha2 : a ∈ (n :: rest).filter (fun k => decide (k ≠ m)) := by
                simp only [List.mem_filter, decide_eq_true_eq]
                exact ⟨ha, ham⟩
              exact Nat.succ_lt_succ (hord b a hedge hb1 ha2)
        · exact absurd h (by simp)

/-- Without a dependency cycle, Kahn's algorithm returns an order as soon as
the fuel covers the number of remaining nodes. -/
theorem kahn_ok_of_acyclic (edges : List (Nat × Nat))
    (hac : ∀ n, ¬ Relation.TransGen (fun b a => (b, a) ∈ edges) n n) :
    ∀ (fuel : Nat) (remaining : List Nat), remaining.length ≤ fuel →
      ∃ order, kahn edges fuel remaining = Except.ok order := by
  intro fuel
  induction fuel with
  | zero =>
    intro remaining hlen
    cases remaining with
    | nil => exact ⟨[], by simp [kahn]⟩
    | cons n rest => simp at hlen
  | succ fuel ih =>
    intro remaining hlen
    cases remaining with
    | nil => exact ⟨[], by simp [kahn]⟩
    | cons n rest =>
      obtain ⟨m, hsel⟩ := selectNext_isSome_of_acyclic edges hac n rest
      have hm := (selectNext_some hsel).1
      have hlt := length_remove_lt hm
      obtain ⟨order1, hrec⟩ :=
        ih ((n :: rest).filter (fun k => decide (k ≠ m))) (by omega)
      exact ⟨m :: order1, by rw [kahn_succ_cons, hsel]; simp only [hrec]⟩

/-- With a dependency cycle among the remaining nodes, Kahn's algorithm
returns a residual set; it keeps the order of the remaining nodes and holds
every node on a cycle. -/
theorem kahn_error_of_cycle (edges : List (Nat × Nat)) :
    ∀ (fuel : Nat) (remaining : List Nat),
      (∃ c, Relation.TransGen (fun b a => (b, a) ∈ edges) c c) →
      (∀ c, Relation.TransGen (fun b a => (b, a) ∈ edges) c c → c ∈ remaining) →
      ∃ residual, kahn edges fuel remaining = Except.error residual
        ∧ (∀ c, Relation.TransGen (fun b a => (b, a) ∈ edges) c c → c ∈ residual)
        ∧ residual.Sublist remaining := by
  intro fuel
  induction fuel with
  | zero =>
    intro remaining hex hsub
    cases remaining with
    | nil =>
      obtain ⟨c, hc⟩ := hex
      exact absurd (hsub c hc) (List.not_mem_nil c)
    | cons n rest => exact ⟨n :: rest, by simp [kahn], hsub, List.Sublist.refl _⟩
  | succ fuel ih =>
    intro remaining hex hsub
    cases remaining with
    | nil =>
      obtain ⟨c, hc⟩ := hex
      exact absurd (hsub c hc) (List.not_mem_nil c)
    | cons n rest =>
      cases hsel : selectNext edges (n :: rest) with
      | none =>
        exact ⟨n :: rest, by rw [kahn_succ_cons, hsel], hsub, List.Sublist.refl _⟩
      | some m =>
        obtain ⟨-, hzero, -⟩ := selectNext_some hsel
        have hsub1 : ∀ c, Relation.TransGen (fun b a => (b, a) ∈ edges) c c →
            c ∈ (n :: rest).filter (fun k => decide (k ≠ m)) := by
          intro c hc
          simp only [List.mem_filter, decide_eq_true_eq]
          refine ⟨hsub c hc, ?_⟩
          rintro rfl
          obtain ⟨p, hpc, hpp⟩ := cycle_has_cyclic_supplier hc
          exact hzero p (hsub p hpp) hpc
        obtain ⟨residual, hrec, hall, hin⟩ := ih _ hex hsub1
        exact ⟨residual, by rw [kahn_succ_cons, hsel]; simp only [hrec], hall,
          hin.trans (List.filter_sublist _)⟩

/-- One round reaches the nodes already seen and the consumers they supply. -/
theorem mem_expand (edges : List (Nat × Nat)) (visited : List Nat) (x : Nat) :
    x ∈ expand edges visited ↔ x ∈ visited ∨ ∃ y ∈ visited, (y, x) ∈ edges := by
  unfold expand
  rw [List.mem_append, List.mem_map]
  constructor
  · rintro (h | ⟨⟨y, z⟩, hmem, rfl⟩)
    · exact Or.inl h
    · rw [List.mem_filter] at hmem
      exact Or.inr ⟨y, by simpa using hmem.2, hmem.1⟩
  · rintro (h | ⟨y, hy, hedge⟩)
    · exact Or.inl h
    · exact Or.inr ⟨(y, x), List.mem_filter.mpr ⟨hedge, by simpa using hy⟩, rfl⟩

/-- The rounds never lose a node. -/
theorem subset_closure (edges : List (Nat × Nat)) :
    ∀ (fuel : Nat) (visited : List Nat), ∀ x ∈ visited, x ∈ closure edges fuel visited := by
  intro fuel
  induction fuel with
  | zero => intro visited x hx; exact hx
  | succ fuel ih =>
    intro visited x hx
    exact ih _ x ((mem_expand edges visited x).mpr (Or.inl hx))

/-- Every node reached by the rounds has a property that the start nodes have
and that passes from a supplier to its consumers. -/
theorem closure_induction (edges : List (Nat × Nat)) (P : Nat → Prop)
    (hstep : ∀ y x, P y → (y, x) ∈ edges → P x) :
    ∀ (fuel : Nat) (visited : List Nat), (∀ x ∈ visited, P x) →
      ∀ x ∈ closure edges fuel visited, P x := by
  intro fuel
  induction fuel with
  | zero => intro visited h x hx; exact h x hx
  | succ fuel ih =>
    intro visited h x hx
    refine ih (expand edges visited) ?_ x hx
    intro z hz
    rcases (mem_expand edges visited z).mp hz with hz | ⟨y, hy, hedge⟩
    · exact h z hz
    · exact hstep y z (h y hy) hedge

/-- A list that holds the consumers of its nodes stays so under the rounds. -/
theorem closure_closed_of_closed (edges : List (Nat × Nat)) :
    ∀ (fuel : Nat) (visited : List Nat),
      (∀ y ∈ visited, ∀ x, (y, x) ∈ edges → x ∈ visited) →
      ∀ y ∈ closure edges fuel visited, ∀ x, (y, x) ∈ edges →
        x ∈ closure edges fuel visited := by
  intro fuel
  induction fuel with
  | zero => intro visited h; exact h
  | succ fuel ih =>
    intro visited h
    have hsame : ∀ z, z ∈ expand edges visited ↔ z ∈ visited := by
      intro z
      rw [mem_expand]
      constructor
      · rintro (hz | ⟨y, hy, hedge⟩)
        · exact hz
        · exact h y hy z hedge
      · exact Or.inl
    refine ih (expand edges visited) ?_
    intro y hy x hedge
    exact (hsame x).mpr (h y ((hsame y).mp hy) x hedge)

/-- Once the fuel covers the consumers not yet seen, the rounds end on a
list that holds the consumers of its nodes. -/
theorem closure_closed (edges : List (Nat × Nat)) :
    ∀ (fuel : Nat) (visited : List Nat),
      visited.toFinset ⊆ (edges.map Prod.snd).toFinset →
      (edges.map Prod.snd).toFinset.card ≤ visited.toFinset.card + fuel →
      ∀ y ∈ closure edges fuel visited, ∀ x, (y, x) ∈ edges →
        x ∈ closure edges fuel visited := by
  intro fuel
  induction fuel with
  | zero =>
    intro visited hsub hcard y hy x hedge
    have heq : visited.toFinset = (edges.map Prod.snd).toFinset :=
      Finset.eq_of_subset_of_card_le hsub (by simpa using hcard)
    have hx : x ∈ (edges.map Prod.snd).toFinset := by
      rw [List.mem_toFinset]
      exact List.mem_map_of_mem Prod.snd hedge
    rw [← heq, List.mem_toFinset] at hx
    exact hx
  | succ fuel ih =>
    intro visited hsub hcard
    by_cases hclosed : ∀ y ∈ visited, ∀ x, (y, x) ∈ edges → x ∈ visited
    · exact closure_closed_of_closed edges (fuel + 1) visited hclosed
    · push_neg at hclosed
      obtain ⟨y, hy, x, hedge, hx⟩ := hclosed
      have hsub1 : (expand edges visited).toFinset ⊆ (edges.map Prod.snd).toFinset := by
        intro z hz
        rw [List.mem_toFinset] at hz
        rcases (mem_expand edges visited z).mp hz with hz | ⟨w, -, hwz⟩
        · exact hsub (List.mem_toFinset.mpr hz)
        · rw [List.mem_toFinset]
          exact List.mem_map_of_mem Prod.snd hwz
      have hlt : visited.toFinset.card < (expand edges visited).toFinset.card := by
        apply Finset.card_lt_card
        rw [Finset.ssubset_iff_of_subset]
        · exact ⟨x, List.mem_toFinset.mpr ((mem_expand edges visited x).mpr
            (Or.inr ⟨y, hy, hedge⟩)), fun hmem => hx (List.mem_toFinset.mp hmem)⟩
        · intro z hz
          rw [List.mem_toFinset] at hz ⊢
          exact (mem_expand edges visited z).mpr (Or.inl hz)
      exact ih (expand edges visited) hsub1 (by omega)

/-- The list `descendants edges n` holds exactly the nodes that `n` reaches
along one or more dependency edges. -/
theorem mem_descendants_iff (edges : List (Nat × Nat)) (n x : Nat) :
    x ∈ descendants edges n ↔ Relation.TransGen (fun b a => (b, a) ∈ edges) n x := by
  have hcons : ∀ z, z ∈ consumers edges n ↔ (n, z) ∈ edges := by
    intro z
    unfold consumers
    rw [List.mem_map]
    constructor
    · rintro ⟨⟨y, w⟩, hmem, rfl⟩
      rw [List.mem_filter] at hmem
      have hy : y = n := by simpa using hmem.2
      rw [← hy]
      exact hmem.1
    · intro h
      exact ⟨(n, z), List.mem_filter.mpr ⟨h, by simp⟩, rfl⟩
  constructor
  · intro hx
    refine closure_induction edges (fun z => Relation.TransGen (fun b a => (b, a) ∈ edges) n z)
      (fun y z hy hedge => Relation.TransGen.tail hy hedge) edges.length (consumers edges n)
      ?_ x hx
    intro z hz
    exact Relation.TransGen.single ((hcons z).mp hz)
  · intro hx
    have hsub : (consumers edges n).toFinset ⊆ (edges.map Prod.snd).toFinset := by
      intro z hz
      rw [List.mem_toFinset] at hz ⊢
      exact List.mem_map_of_mem Prod.snd ((hcons z).mp hz)
    have hcard : (edges.map Prod.snd).toFinset.card
        ≤ (consumers edges n).toFinset.card + edges.length := by
      have h1 := List.toFinset_card_le (edges.map Prod.snd)
      rw [List.length_map] at h1
      omega
    have hclosed := closure_closed edges edges.length (consumers edges n) hsub hcard
    induction hx with
    | single hedge =>
      exact subset_closure edges edges.length _ _ ((hcons _).mpr hedge)
    | tail _ hedge ih => exact hclosed _ ih _ hedge

/-- The test `onCycle` holds exactly for the nodes on a dependency cycle. -/
theorem onCycle_iff (edges : List (Nat × Nat)) (n : Nat) :
    onCycle edges n = true ↔ Relation.TransGen (fun b a => (b, a) ∈ edges) n n := by
  unfold onCycle
  rw [decide_eq_true_eq, mem_descendants_iff]

/-- The render sequence built from an order lists that order. -/
theorem build_eq_ok_iff (g : Graph) (order : List Nat) (h : buildOrder g = Except.ok order) :
    build g = Except.ok { steps := order.map RenderStep.mk }
      ∧ RenderSequence.order { steps := order.map RenderStep.mk } = order := by
  constructor
  · simp [build, h]
  · simp [RenderSequence.order, List.map_map, Function.comp_def]

end RenderSequenceBuilder

namespace Graph

/-- A dependency edge comes from an Audio or Control connection of the graph. -/
theorem mem_dependencies_iff (g : Graph) (b a : Nat) :
    (b, a) ∈ g.dependencies
      ↔ ∃ arc ∈ g.connections, g.isOrdering arc = true
          ∧ arc.sourceNodeId = b ∧ arc.destNodeId = a := by
  simp [dependencies, List.mem_map, List.mem_filter, and_assoc]

/-- The supplier of a dependency edge is a node of the graph. -/
theorem source_mem_nodeIds (g : Graph) {b a : Nat} (h : (b, a) ∈ g.dependencies) :
    b ∈ g.nodeIds := by
  obtain ⟨arc, -, hord, rfl, -⟩ := (mem_dependencies_iff g b a).mp h
  unfold isOrdering findPort at hord
  cases hfind : g.findNode arc.sourceNodeId with
  | none => simp [hfind] at hord
  | some nd =>
    unfold findNode at hfind
    have hid := List.find?_some hfind
    have hmem := List.mem_of_find?_eq_some hfind
    simp only [decide_eq_true_eq] at hid
    rw [nodeIds, List.mem_dedup, ← hid]
    exact List.mem_map_of_mem Node.id hmem

/-- A topology whose dependency edges all run from a lower to a higher node
id has no cycle. -/
theorem acyclic_of_increasing (g : Graph) (h : ∀ e ∈ g.dependencies, e.1 < e.2) :
    g.Acyclic := by
  have hlt : ∀ b a, Relation.TransGen (fun b a => (b, a) ∈ g.dependencies) b a → b < a := by
    intro b a hba
    induction hba with
    | single hedge => exact h _ hedge
    | tail _ hedge ih => exact lt_trans ih (h _ hedge)
  intro n hn
  exact lt_irrefl n (hlt n n hn)

end Graph

/-- A successful `tryAdd` appends the arc and keeps the nodes. -/
theorem ConnectionSet.tryAdd_ok {g g1 : Graph} {arc : Arc}
    (h : ConnectionSet.tryAdd g arc = Except.ok g1) :
    g1 = { g with connections := g.connections ++ [arc] } := by
  unfold ConnectionSet.tryAdd at h
  split at h
  · split at h
    · exact absurd h (by simp)
    · split at h
      · exact absurd h (by simp)
      · split at h
        · exact absurd h (by simp)
        · simp only [Except.ok.injEq] at h
          exact h.symm
  · exact absurd h (by simp)

/-- C5: for every topology without a cycle among its Audio/Control
connections the builder returns a render sequence; it lists every node of the
topology exactly once, and for every Audio/Control connection into a node of
the topology the supplying node comes earlier in the order than the supplied
node. -/
theorem build_order_respects_dependencies (g : Graph) (hac : g.Acyclic) :
    ∃ seq, RenderSequenceBuilder.build g = Except.ok seq
      ∧ seq.order.Nodup
      ∧ (∀ n, n ∈ seq.order ↔ n ∈ g.nodes.map Node.id)
      ∧ ∀ arc ∈ g.connections, g.isOrdering arc = true →
          arc.destNodeId ∈ g.nodes.map Node.id →
          arc.sourceNodeId ∈ seq.order ∧ arc.destNodeId ∈ seq.order
            ∧ seq.order.indexOf arc.sourceNodeId < seq.order.indexOf arc.destNodeId := by
  obtain ⟨order, hk⟩ :=
    RenderSequenceBuilder.kahn_ok_of_acyclic g.dependencies hac g.nodeIds.length g.nodeIds
      (le_refl _)
  obtain ⟨hnodup, hmem, hord⟩ :=
    RenderSequenceBuilder.kahn_ok_spec g.dependencies _ _ _ hk
  obtain ⟨hbuild, horder⟩ := RenderSequenceBuilder.build_eq_ok_iff g order hk
  have hids : ∀ n, n ∈ order ↔ n ∈ g.nodes.map Node.id := by
    intro n
    rw [hmem n, Graph.nodeIds, List.mem_dedup]
  refine ⟨_, hbuild, ?_, ?_, ?_⟩
  · rw [horder]
    exact hnodup
  · rw [horder]
    exact hids
  · intro arc harc hordering hdest
    rw [horder]
    have hedge : (arc.sourceNodeId, arc.destNodeId) ∈ g.dependencies :=
      (Graph.mem_dependencies_iff g _ _).mpr ⟨arc, harc, hordering, rfl, rfl⟩
    have hsrc : arc.sourceNodeId ∈ g.nodeIds := Graph.source_mem_nodeIds g hedge
    have hdst : arc.destNodeId ∈ g.nodeIds := by
      rw [Graph.nodeIds, List.mem_dedup]
      exact hdest
    exact ⟨(hmem _).mpr hsrc, (hmem _).mpr hdst, hord _ _ hedge hsrc hdst⟩

/-- C5 on the scenario A→B, B→C, A→C: the topology has no cycle and the
builder returns the order A, B, C. -/
theorem build_order_respects_dependencies_witness :
    scenarioABC.Acyclic
      ∧ RenderSequenceBuilder.build scenarioABC = Except.ok { steps := [⟨1⟩, ⟨2⟩, ⟨3⟩] }
      ∧ ∃ seq, RenderSequenceBuilder.build scenarioABC = Except.ok seq
          ∧ seq.order.Nodup
          ∧ (∀ n, n ∈ seq.order ↔ n ∈ scenarioABC.nodes.map Node.id)
          ∧ ∀ arc ∈ scenarioABC.connections, scenarioABC.isOrdering arc = true →
              arc.destNodeId ∈ scenarioABC.nodes.map Node.id →
              arc.sourceNodeId ∈ seq.order ∧ arc.destNodeId ∈ seq.order
                ∧ seq.order.indexOf arc.sourceNodeId < seq.order.indexOf arc.destNodeId :=
  ⟨Graph.acyclic_of_increasing scenarioABC (by decide), rfl,
    build_order_respects_dependencies scenarioABC
      (Graph.acyclic_of_increasing scenarioABC (by decide))⟩

/-- C6: when the connection set accepts an arc and the topology with the arc
added has a cycle among its Audio/Control connections, `connect` returns a
`CycleError` and the engine, that is the graph and the published render
sequence, is unchanged. The error names exactly the nodes involved in a cycle:
a node is named if and only if it lies on a cycle of the topology with the arc
added, at least one node is named, each once, in the order of the graph's
nodes, and every named node is a node of the graph. -/
theorem connect_cycle_rejected (e : GraphEngine) (arc : Arc) (g : Graph)
    (hadd : ConnectionSet.tryAdd e.graph arc = Except.ok g) (hcyc : ¬ g.Acyclic) :
    ∃ ids, e.connect arc = (ConnectResult.cycleError { involvedNodeIds := ids }, e)
      ∧ (e.connect arc).2.graph = e.graph
      ∧ (e.connect arc).2.published = e.published
      ∧ (∀ n, n ∈ ids ↔ Relation.TransGen (fun b a => (b, a) ∈ g.dependencies) n n)
      ∧ ids ≠ []
      ∧ ids.Nodup
      ∧ ids.Sublist e.graph.nodeIds
      ∧ (∀ n ∈ ids, n ∈ e.graph.nodes.map Node.id)
      ∧ g = { e.graph with connections := e.graph.connections ++ [arc] } := by
  have hg := ConnectionSet.tryAdd_ok hadd
  have hnodes : g.nodeIds = e.graph.nodeIds := by
    rw [hg]
    rfl
  have hex : ∃ c, Relation.TransGen (fun b a => (b, a) ∈ g.dependencies) c c := by
    unfold Graph.Acyclic at hcyc
    push_neg at hcyc
    exact hcyc
  have hsub : ∀ c, Relation.TransGen (fun b a => (b, a) ∈ g.dependencies) c c →
      c ∈ g.nodeIds := by
    intro c hc
    obtain ⟨b, hedge, -⟩ := Relation.TransGen.head'_iff.mp hc
    exact Graph.source_mem_nodeIds g hedge
  obtain ⟨residual, hk, hall, hin⟩ :=
    RenderSequenceBuilder.kahn_error_of_cycle g.dependencies g.nodeIds.length g.nodeIds
      hex hsub
  have hbuild : RenderSequenceBuilder.build g
      = Except.error
          { involvedNodeIds := RenderSequenceBuilder.offendingNodes g.dependencies residual } := by
    simp [RenderSequenceBuilder.build, RenderSequenceBuilder.buildOrder, hk]
  have hconn : e.connect arc
      = (ConnectResult.cycleError
          { involvedNodeIds := RenderSequenceBuilder.offendingNodes g.dependencies residual },
          e) := by
    simp [GraphEngine.connect, hadd, hbuild]
  have hiff : ∀ n, n ∈ RenderSequenceBuilder.offendingNodes g.dependencies residual
      ↔ Relation.TransGen (fun b a => (b, a) ∈ g.dependencies) n n := by
    intro n
    unfold RenderSequenceBuilder.offendingNodes
    rw [List.mem_filter, RenderSequenceBuilder.onCycle_iff]
    constructor
    · exact fun h => h.2
    · exact fun h => ⟨hall n h, h⟩
  have hsubl : (RenderSequenceBuilder.offendingNodes g.dependencies residual).Sublist
      e.graph.nodeIds := by
    rw [← hnodes]
    exact (List.filter_sublist _).trans hin
  refine ⟨_, hconn, by rw [hconn], by rw [hconn], hiff, ?_, ?_, hsubl, ?_, hg⟩
  · obtain ⟨c, hc⟩ := hex
    exact List.ne_nil_of_mem ((hiff c).mpr hc)
  · exact List.Nodup.sublist hsubl (List.nodup_dedup _)
  · intro n hn
    have h1 := hsubl.subset hn
    rw [Graph.nodeIds, List.mem_dedup] at h1
    exact h1

/-- C6 on two scenarios. First A→B, then B→A: the first `connect` succeeds,
the second arc is accepted by the connection set and closes a cycle, and
`connect` returns `CycleError` naming A and B with the engine unchanged.
Second, nodes 1, 2, 3, 0, 7 with 0→1, 1→2, 2→3 connected and the arc 2→1
added: the residual set of Kahn's algorithm is 1, 2, 3, and the error names
1 and 2 only, neither the upstream node 0, nor the downstream node 3, nor the
unconnected node 7. -/
theorem connect_cycle_rejected_witness :
    ((scenarioAB.connect arcAB).1 = ConnectResult.ok
      ∧ ConnectionSet.tryAdd scenarioABConnected.graph arcBA = Except.ok scenarioABCycle
      ∧ ¬ scenarioABCycle.Acyclic
      ∧ scenarioABConnected.connect arcBA
          = (ConnectResult.cycleError { involvedNodeIds := [1, 2] }, scenarioABConnected)
      ∧ ∃ ids, scenarioABConnected.connect arcBA
            = (ConnectResult.cycleError { involvedNodeIds := ids }, scenarioABConnected)
          ∧ (scenarioABConnected.connect arcBA).2.graph = scenarioABConnected.graph
          ∧ (scenarioABConnected.connect arcBA).2.published = scenarioABConnected.published
          ∧ (∀ n, n ∈ ids
              ↔ Relation.TransGen (fun b a => (b, a) ∈ scenarioABCycle.dependencies) n n)
          ∧ ids ≠ []
          ∧ ids.Nodup
          ∧ ids.Sublist scenarioABConnected.graph.nodeIds
          ∧ (∀ n ∈ ids, n ∈ scenarioABConnected.graph.nodes.map Node.id)
          ∧ scenarioABCycle
              = { scenarioABConnected.graph with
                  connections := scenarioABConnected.graph.connections ++ [arcBA] })
      ∧ ((scenarioFive.connect arc01).1 = ConnectResult.ok
        ∧ ((scenarioFive.connect arc01).2.connect arc12).1 = ConnectResult.ok
        ∧ (((scenarioFive.connect arc01).2.connect arc12).2.connect arc23).1 = ConnectResult.ok
        ∧ scenarioFiveConnected.published = { steps := [⟨0⟩, ⟨1⟩, ⟨2⟩, ⟨3⟩, ⟨7⟩] }
        ∧ ConnectionSet.tryAdd scenarioFiveConnected.graph arc21 = Except.ok scenarioFiveCycle
        ∧ ¬ scenarioFiveCycle.Acyclic
        ∧ RenderSequenceBuilder.buildOrder scenarioFiveCycle = Except.error [1, 2, 3]
        ∧ scenarioFiveConnected.connect arc21
            = (ConnectResult.cycleError { involvedNodeIds := [1, 2] }, scenarioFiveConnected)
        ∧ ∃ ids, scenarioFiveConnected.connect arc21
              = (ConnectResult.cycleError { involvedNodeIds := ids }, scenarioFiveConnected)
            ∧ (scenarioFiveConnected.connect arc21).2.graph = scenarioFiveConnected.graph
            ∧ (scenarioFiveConnected.connect arc21).2.published
                = scenarioFiveConnected.published
            ∧ (∀ n, n ∈ ids
                ↔ Relation.TransGen (fun b a => (b, a) ∈ scenarioFiveCycle.dependencies) n n)
            ∧ ids ≠ []
            ∧ ids.Nodup
            ∧ ids.Sublist scenarioFiveConnected.graph.nodeIds
            ∧ (∀ n ∈ ids, n ∈ scenarioFiveConnected.graph.nodes.map Node.id)
            ∧ scenarioFiveCycle
                = { scenarioFiveConnected.graph with
                    connections := scenarioFiveConnected.graph.connections ++ [arc21] }) :=
  ⟨⟨rfl, rfl,
      fun hac => hac 1 (Relation.TransGen.tail
        (Relation.TransGen.single (by decide : (1, 2) ∈ scenarioABCycle.dependencies))
        (by decide : (2, 1) ∈ scenarioABCycle.dependencies)),
      rfl,
      connect_cycle_rejected scenarioABConnected arcBA scenarioABCycle rfl
        (fun hac => hac 1 (Relation.TransGen.tail
          (Relation.TransGen.single (by decide : (1, 2) ∈ scenarioABCycle.dependencies))
          (by decide : (2, 1) ∈ scenarioABCycle.dependencies)))⟩,
    ⟨rfl, rfl, rfl, rfl, rfl,
      fun hac => hac 1 (Relation.TransGen.tail
        (Relation.TransGen.single (by decide : (1, 2) ∈ scenarioFiveCycle.dependencies))
        (by decide : (2, 1) ∈ scenarioFiveCycle.dependencies)),
      rfl, rfl,
      connect_cycle_rejected scenarioFiveConnected arc21 scenarioFiveCycle rfl
        (fun hac => hac 1 (Relation.TransGen.tail
          (Relation.TransGen.single (by decide : (1, 2) ∈ scenarioFiveCycle.dependencies))
          (by decide : (2, 1) ∈ scenarioFiveCycle.dependencies)))⟩⟩

end Element
